import Mathlib

/-!
Shallow embedding of `src/docs/circle-drawer/index.js` (the 7-GUIs circle
drawer widget): circles placed by clicking an SVG surface, a per-circle
menu and diameter-adjustment form, and an undo/redo change log.

JavaScript numbers are modelled as rationals (`ℚ`): every number the
program manipulates is obtained from integer inputs by halving and
doubling, which are exact in both binary floating point and `ℚ`.
Circle DOM objects are modelled by identifiers (`Nat`) allocated
in creation order; `circleAttrs` keeps the attributes of every circle
object ever created (a removed circle object still exists and keeps its
attributes — only its membership in `svg` ends), and `svg` is the ordered
list of children of the `<svg>` element.
-/

namespace CircleDrawer

/-- The attributes of one circle element set via `setAttribute` in `createCircle`
(`fill` and `stroke` are constants and carry no information). -/
structure CircleData where
  cx : ℚ
  cy : ℚ
  r : ℚ
  deriving DecidableEq, Repr

/-- The tagged change records pushed by `logCircleAdd` / `logDiameterChange`
(`changeTypes` in the source); circles are referenced by identifier. -/
inductive Change where
  | circleAdded (c : Nat)
  | diameterChange (c : Nat) (oldDiameter newDiameter : ℚ)
  deriving DecidableEq, Repr

/-- The circle a change record references (`change.circle`). -/
def Change.cid : Change → Nat
  | Change.circleAdded c => c
  | Change.diameterChange c _ _ => c

/-- The `states` object of the source. -/
inductive UIState where
  | default
  | menuOpen
  | formOpen
  deriving DecidableEq, Repr

/-- The module-level mutable state of the script together with the DOM
state it manipulates: the two stacks `changes` / `changesUndone`, the
`selected` record (circle id and diameter snapshot), the `disabled`
properties of the undo/redo buttons, visibility of menu and form, the
`disabled` class of the svg, and the circles themselves. -/
@[ext]
structure AppState where
  nextId : Nat
  circleAttrs : Nat → Option CircleData
  svg : List Nat
  changes : List Change
  changesUndone : List Change
  undoDisabled : Bool
  redoDisabled : Bool
  selected : Option (Nat × ℚ)
  uiState : UIState
  menuVisible : Bool
  formVisible : Bool
  svgDisabled : Bool

/-- `circle.getAttribute("r")`; a circle identifier never created reads as
`0` (in the source every dereferenced circle reference is a live object,
so that branch is never taken in any flow modelled below). -/
def getR (s : AppState) (c : Nat) : ℚ :=
  ((s.circleAttrs c).map CircleData.r).getD 0

/-- `circle.setAttribute("r", v)`. -/
def setR (s : AppState) (c : Nat) (v : ℚ) : AppState :=
  { s with
    circleAttrs := fun i =>
      if i = c then (s.circleAttrs c).map (fun d => { d with r := v })
      else s.circleAttrs i }

/-- `DEFAULT_DIAMETER` of the source; `createCircle` writes this value
into the `r` attribute. -/
def DEFAULT_DIAMETER : ℚ := 24

/-- `onStateChange`: the entry actions run by `state.set`. -/
def onStateChange (v : UIState) (s : AppState) : AppState :=
  match v with
  | UIState.default =>
    { s with
      undoDisabled := if s.changes.isEmpty then s.undoDisabled else false
      redoDisabled := if s.changesUndone.isEmpty then s.redoDisabled else false
      svgDisabled := false
      selected := none
      menuVisible := false
      formVisible := false }
  | UIState.menuOpen =>
    { s with menuVisible := true, undoDisabled := true, redoDisabled := true, svgDisabled := true }
  | UIState.formOpen => s

/-- `state.set(v)`: assign the state value, then run `onStateChange`.
The `throw` for an unknown state value is unrepresentable here because
`UIState` is a closed enumeration (the source only ever passes the three
members of `states`); entering `default` runs `deselect()`, which in the
source dereferences `selected` (never null on the flows modelled below). -/
def stateSet (v : UIState) (s : AppState) : AppState :=
  onStateChange v { s with uiState := v }

/-- `onSvgClick`: `createCircle` at the click coordinates, `addCircle`,
`logCircleAdd` (push record, enable undo), `resetChangesUndone` (clear
the redo stack, disable redo). -/
def onSvgClick (x y : ℚ) (s : AppState) : AppState :=
  { s with
    nextId := s.nextId + 1
    circleAttrs := fun i =>
      if i = s.nextId then some ⟨x, y, DEFAULT_DIAMETER⟩ else s.circleAttrs i
    svg := s.svg ++ [s.nextId]
    changes := s.changes ++ [Change.circleAdded s.nextId]
    undoDisabled := false
    changesUndone := []
    redoDisabled := true }

/-- `onCircleRightClick`: `select(circle)` (snapshot the diameter as
`r * 2`) then `state.set(menuOpen)`. -/
def onCircleRightClick (c : Nat) (s : AppState) : AppState :=
  stateSet UIState.menuOpen { s with selected := some (c, getR s c * 2) }

/-- `onAdjustDiameterClick`: `loadForm()` (show the form), `hide(menu)`,
`state.set(formOpen)`. -/
def onAdjustDiameterClick (s : AppState) : AppState :=
  stateSet UIState.formOpen { s with formVisible := true, menuVisible := false }

/-- `onMenuCloseClick`. -/
def onMenuCloseClick (s : AppState) : AppState :=
  stateSet UIState.default s

/-- `onDiameterInput`: live update `r := value / 2` on the selected circle
(the source dereferences `selected`, which throws when null; these flows
are not modelled, see `handleTrigger`). -/
def onDiameterInput (v : ℚ) (s : AppState) : AppState :=
  match s.selected with
  | some (c, _) => setR s c (v / 2)
  | none => s

/-- `logDiameterChange`: compare the circle's current diameter with the
selection snapshot; on a difference push a `diameterChange` record,
enable undo and `resetChangesUndone`. -/
def logDiameterChange (s : AppState) : AppState :=
  match s.selected with
  | none => s
  | some (c, oldDiameter) =>
    let newDiameter := getR s c * 2
    if newDiameter ≠ oldDiameter then
      { s with
        changes := s.changes ++ [Change.diameterChange c oldDiameter newDiameter]
        undoDisabled := false
        changesUndone := []
        redoDisabled := true }
    else s

/-- `onFormCloseClick`: `logDiameterChange()` then `state.set(default)`. -/
def onFormCloseClick (s : AppState) : AppState :=
  stateSet UIState.default (logDiameterChange s)

/-- `removeCircle`: `svg.removeChild` (DOM child lists have no duplicate
nodes, so erasing the first occurrence is exact). -/
def removeCircle (c : Nat) (s : AppState) : AppState :=
  { s with svg := s.svg.erase c }

/-- `addCircle`: `svg.appendChild`. -/
def addCircle (c : Nat) (s : AppState) : AppState :=
  { s with svg := s.svg ++ [c] }

/-- The `switch (change.type)` body of `onUndoClick`: `removeCircle` or
`undoDiameterChange` (set `r := oldDiameter / 2`). The `default: throw`
branch is unrepresentable because `Change` is a closed union. -/
def applyUndo (ch : Change) (s : AppState) : AppState :=
  match ch with
  | Change.circleAdded c => removeCircle c s
  | Change.diameterChange c oldD _ => setR s c (oldD / 2)

/-- The `switch (change.type)` body of `onRedoClick`: `addCircle` or
`redoDiameterChange` (set `r := newDiameter / 2`). -/
def applyRedo (ch : Change) (s : AppState) : AppState :=
  match ch with
  | Change.circleAdded c => addCircle c s
  | Change.diameterChange c _ newD => setR s c (newD / 2)

/-- `onUndoClick`: when `changes` is non-empty pop its last record, push
it onto `changesUndone` and apply its inverse effect; afterwards disable
the undo button when `changes` ended empty, and unconditionally enable
the redo button. -/
def onUndoClick (s : AppState) : AppState :=
  match s.changes.getLast? with
  | none => { s with undoDisabled := true, redoDisabled := false }
  | some ch =>
    let s1 := applyUndo ch
      { s with changes := s.changes.dropLast, changesUndone := s.changesUndone ++ [ch] }
    { s1 with
      undoDisabled := if s1.changes.isEmpty then true else s1.undoDisabled
      redoDisabled := false }

/-- `onRedoClick`: when `changesUndone` is non-empty pop its last record,
push it back onto `changes` and apply its forward effect; afterwards
disable the redo button when `changesUndone` ended empty, and
unconditionally enable the undo button. -/
def onRedoClick (s : AppState) : AppState :=
  match s.changesUndone.getLast? with
  | none => { s with redoDisabled := true, undoDisabled := false }
  | some ch =>
    let s1 := applyRedo ch
      { s with changesUndone := s.changesUndone.dropLast, changes := s.changes ++ [ch] }
    { s1 with
      redoDisabled := if s1.changesUndone.isEmpty then true else s1.redoDisabled
      undoDisabled := false }

/-- One whole diameter-adjustment session on circle `c`: right-click,
choose "adjust diameter", a sequence of slider inputs `vs`, close the
form. -/
def diamChangeOp (c : Nat) (vs : List ℚ) (s : AppState) : AppState :=
  onFormCloseClick
    (vs.foldl (fun t v => onDiameterInput v t) (onAdjustDiameterClick (onCircleRightClick c s)))

/-- A menu session closed without adjusting: right-click then close. -/
def menuCancelOp (c : Nat) (s : AppState) : AppState :=
  onMenuCloseClick (onCircleRightClick c s)

/-- The diameter read at form-close time when the snapshot was `d` and the
slider inputs were `vs`: the last input value, or `d` when the slider was
never moved (each input sets `r := v / 2`, and the close reads `r * 2`). -/
def finalDiam (d : ℚ) (vs : List ℚ) : ℚ :=
  (vs.getLast?).getD d

/-- Modelled from the spec: the page's initial HTML/CSS is not under
`src/` (only the script is), so the initial DOM state is taken from the
spec — the widget starts in the `default` state with no circles, both
histories empty, and the undo/redo controls disabled ("undo button
disabled when stack empty", menu and form hidden, surface enabled). -/
def initialState : AppState where
  nextId := 0
  circleAttrs := fun _ => none
  svg := []
  changes := []
  changesUndone := []
  undoDisabled := true
  redoDisabled := true
  selected := none
  uiState := UIState.default
  menuVisible := false
  formVisible := false
  svgDisabled := false

/-- The raw DOM events the script handles. -/
inductive Trigger where
  | svgClick (x y : ℚ)
  | circleRightClick (c : Nat)
  | adjustDiameterClick
  | menuCloseClick
  | diameterInput (v : ℚ)
  | formCloseClick
  | undoClick
  | redoClick

/-- Dispatch of one raw event to its handler. `Except.error` models a
JavaScript exception escaping the handler: the only throw reachable with
closed `UIState` / `Change` unions is the `TypeError` raised by
dereferencing a null `selected` (in `loadForm`, `onDiameterInput`,
`logDiameterChange` and `deselect`). -/
def handleTrigger : Trigger → AppState → Except String AppState
  | Trigger.svgClick x y, s => Except.ok (onSvgClick x y s)
  | Trigger.circleRightClick c, s => Except.ok (onCircleRightClick c s)
  | Trigger.adjustDiameterClick, s =>
    match s.selected with
    | none => Except.error "TypeError: selected is null"
    | some _ => Except.ok (onAdjustDiameterClick s)
  | Trigger.menuCloseClick, s =>
    match s.selected with
    | none => Except.error "TypeError: selected is null"
    | some _ => Except.ok (onMenuCloseClick s)
  | Trigger.diameterInput v, s =>
    match s.selected with
    | none => Except.error "TypeError: selected is null"
    | some _ => Except.ok (onDiameterInput v s)
  | Trigger.formCloseClick, s =>
    match s.selected with
    | none => Except.error "TypeError: selected is null"
    | some _ => Except.ok (onFormCloseClick s)
  | Trigger.undoClick, s => Except.ok (onUndoClick s)
  | Trigger.redoClick, s => Except.ok (onRedoClick s)

/-- `n` clicks of the undo button. -/
def undoIter : Nat → AppState → AppState
  | 0, s => s
  | n + 1, s => undoIter n (onUndoClick s)

/-- A user-initiated edit: placing a circle, or one whole confirmed
diameter-adjustment session. -/
inductive Edit where
  | add (x y : ℚ)
  | dc (c : Nat) (vs : List ℚ)

/-- Apply one edit. -/
def applyEdit : Edit → AppState → AppState
  | Edit.add x y, s => onSvgClick x y s
  | Edit.dc c vs, s => diamChangeOp c vs s

/-- The edit is possible for the user and (for a diameter session) is a
confirmed change: the final diameter differs from the snapshot, so that a
record is logged. -/
def OkEdit (s : AppState) : Edit → Prop
  | Edit.add _ _ => s.uiState = UIState.default
  | Edit.dc c vs =>
    s.uiState = UIState.default ∧ c ∈ s.svg ∧ finalDiam (getR s c * 2) vs ≠ getR s c * 2

/-- `EditSeq s es t`: performing the edits `es` in order from `s` ends in
`t`, each edit being possible when performed. -/
inductive EditSeq : AppState → List Edit → AppState → Prop where
  | nil : ∀ {s}, EditSeq s [] s
  | cons : ∀ {s t} (e : Edit) (es : List Edit),
      OkEdit s e → EditSeq (applyEdit e s) es t → EditSeq s (e :: es) t

/-- Modelled from the spec: the DOM event wiring (which elements get which
listeners, and the rule that disabled buttons and the `disabled`-classed
surface emit no events) lives in the page's HTML/CSS, not under `src/`.
Per the spec, user operations fire only when their control is live: the
surface accepts clicks only in the `default` state, circles can be
right-clicked only while on the surface, and the undo/redo buttons only
when enabled ("all user actions are pre-validated by control
enablement"). `Reach` is the set of states between user operations. -/
inductive Reach : AppState → Prop where
  | init : Reach initialState
  | svgClick : ∀ {s} (x y : ℚ), Reach s → s.uiState = UIState.default →
      Reach (onSvgClick x y s)
  | diamChange : ∀ {s} (c : Nat) (vs : List ℚ), Reach s → s.uiState = UIState.default →
      c ∈ s.svg → Reach (diamChangeOp c vs s)
  | menuCancel : ∀ {s} (c : Nat), Reach s → s.uiState = UIState.default →
      c ∈ s.svg → Reach (menuCancelOp c s)
  | undo : ∀ {s}, Reach s → s.undoDisabled = false → Reach (onUndoClick s)
  | redo : ∀ {s}, Reach s → s.redoDisabled = false → Reach (onRedoClick s)

/-- The state after placing one circle at (10, 10) on the fresh page. -/
def stateA : AppState := onSvgClick 10 10 initialState

/-- The state after placing circles at (10, 10) and then (50, 50). -/
def stateAB : AppState := onSvgClick 50 50 stateA

/-- A menu-open state: one circle placed, then right-clicked. -/
def stateMenu : AppState := onCircleRightClick 0 stateA

/-- A form-open state: one circle placed, right-clicked, "adjust diameter" chosen. -/
def stateForm : AppState := onAdjustDiameterClick stateMenu

/-- The circles whose `circleAdded` record lies in `l`, in record order. -/
def addedIds (l : List Change) : List Nat :=
  l.filterMap fun ch => match ch with
    | Change.circleAdded c => some c
    | Change.diameterChange _ _ _ => none

/-- Consistency of the undo stack with the current radii, read from the
most recent record down: the newest record's `newDiameter` matches the
circle's current radius, and below it the stack is consistent with the
radii as they were before that change. The input list is
`changes.reverse` (most recent first). -/
def chConsAux (getr : Nat → ℚ) : List Change → Prop
  | [] => True
  | Change.circleAdded _ :: rest => chConsAux getr rest
  | Change.diameterChange c oldD newD :: rest =>
    getr c = newD / 2 ∧ chConsAux (Function.update getr c (oldD / 2)) rest

/-- Consistency of the redo stack with the current radii and surface,
read from the most recently undone record down: the next record to redo
has its `oldDiameter` matching the circle's current radius (resp. its
circle off the surface), and below it the stack is consistent with the
state after that redo. The input list is `changesUndone.reverse`. -/
def cuConsAux (getr : Nat → ℚ) (svg : List Nat) : List Change → Prop
  | [] => True
  | Change.circleAdded c :: rest => c ∉ svg ∧ cuConsAux getr (svg ++ [c]) rest
  | Change.diameterChange c oldD newD :: rest =>
    getr c = oldD / 2 ∧ cuConsAux (Function.update getr c (newD / 2)) svg rest

/-- The state invariant maintained between user operations. -/
structure Inv (s : AppState) : Prop where
  undoBtn : s.undoDisabled = s.changes.isEmpty
  redoBtn : s.redoDisabled = s.changesUndone.isEmpty
  svgEq : s.svg = addedIds s.changes
  addsNodup : (addedIds (s.changes ++ s.changesUndone)).Nodup
  fresh : ∀ ch ∈ s.changes ++ s.changesUndone, ch.cid < s.nextId
  exist : ∀ ch ∈ s.changes ++ s.changesUndone, (s.circleAttrs ch.cid).isSome = true
  chCons : chConsAux (getR s) s.changes.reverse
  cuCons : cuConsAux (getR s) s.svg s.changesUndone.reverse
  ui : s.uiState = UIState.default
  sel : s.selected = none

lemma addedIds_append (l m : List Change) :
    addedIds (l ++ m) = addedIds l ++ addedIds m := by
  simp [addedIds]

lemma mem_addedIds {a : Nat} {l : List Change} (h : a ∈ addedIds l) :
    Change.circleAdded a ∈ l := by
  simp only [addedIds, List.mem_filterMap] at h
  obtain ⟨ch, hch, he⟩ := h
  cases ch with
  | circleAdded c => simp only [Option.some.injEq] at he; subst he; exact hch
  | diameterChange c o n => simp at he

lemma getR_setR {s : AppState} {c : Nat} (v : ℚ) (h : (s.circleAttrs c).isSome = true) :
    getR (setR s c v) = Function.update (getR s) c v := by
  funext i
  by_cases hic : i = c
  · subst hic
    obtain ⟨d, hd⟩ := Option.isSome_iff_exists.mp h
    simp [getR, setR, hd, Function.update_apply]
  · simp [getR, setR, hic, Function.update_apply]

lemma setR_isSome (s : AppState) (c : Nat) (v : ℚ) (i : Nat) :
    ((setR s c v).circleAttrs i).isSome = (s.circleAttrs i).isSome := by
  by_cases hic : i = c <;> simp [setR, hic]

lemma setR_setR (s : AppState) (c : Nat) (a b : ℚ) :
    setR (setR s c a) c b = setR s c b := by
  ext i
  all_goals simp only [setR]
  by_cases hic : i = c
  · subst hic; simp [Option.map_map]
  · simp [hic]

lemma setR_self {s : AppState} {c : Nat} (h : (s.circleAttrs c).isSome = true) :
    setR s c (getR s c) = s := by
  obtain ⟨d, hd⟩ := Option.isSome_iff_exists.mp h
  ext i <;> simp [setR]
  by_cases hic : i = c
  · subst hic; simp [hd, getR]
  · simp [hic]

lemma chConsAux_congr (f g : Nat → ℚ) (l : List Change) (h : ∀ ch ∈ l, f ch.cid = g ch.cid) :
    chConsAux f l ↔ chConsAux g l := by
  induction l generalizing f g with
  | nil => simp [chConsAux]
  | cons ch rest ih =>
    cases ch with
    | circleAdded c =>
      simpa [chConsAux] using ih _ _ (fun x hx => h x (List.mem_cons_of_mem _ hx))
    | diameterChange c oldD newD =>
      have hc : f c = g c := h _ (List.mem_cons_self _ _)
      simp only [chConsAux, hc]
      refine and_congr Iff.rfl (ih _ _ fun x hx => ?_)
      by_cases hxc : x.cid = c <;>
        simp [Function.update_apply, hxc, h x (List.mem_cons_of_mem _ hx)]

lemma cuConsAux_congr (f g : Nat → ℚ) (l : List Change) (svg : List Nat)
    (h : ∀ ch ∈ l, f ch.cid = g ch.cid) :
    cuConsAux f svg l ↔ cuConsAux g svg l := by
  induction l generalizing f g svg with
  | nil => simp [cuConsAux]
  | cons ch rest ih =>
    cases ch with
    | circleAdded c =>
      simpa [cuConsAux] using
        and_congr Iff.rfl (ih _ _ _ (fun x hx => h x (List.mem_cons_of_mem _ hx)))
    | diameterChange c oldD newD =>
      have hc : f c = g c := h _ (List.mem_cons_self _ _)
      simp only [cuConsAux, hc]
      refine and_congr Iff.rfl (ih _ _ _ fun x hx => ?_)
      by_cases hxc : x.cid = c <;>
        simp [Function.update_apply, hxc, h x (List.mem_cons_of_mem _ hx)]

@[simp] lemma addedIds_nil : addedIds [] = [] := rfl

@[simp] lemma addedIds_singleton_add (c : Nat) : addedIds [Change.circleAdded c] = [c] := rfl

@[simp] lemma addedIds_singleton_dc (c : Nat) (o n : ℚ) :
    addedIds [Change.diameterChange c o n] = [] := rfl

lemma getR_onSvgClick_ne (x y : ℚ) (s : AppState) {i : Nat} (h : i ≠ s.nextId) :
    getR (onSvgClick x y s) i = getR s i := by
  simp [getR, onSvgClick, h]

lemma inv_initial : Inv initialState := by
  refine ⟨rfl, rfl, rfl, ?_, ?_, ?_, ?_, ?_, rfl, rfl⟩ <;>
    simp [initialState, addedIds, chConsAux, cuConsAux]

lemma inv_onSvgClick (x y : ℚ) {s : AppState} (hInv : Inv s) : Inv (onSvgClick x y s) := by
  have hnotmem : s.nextId ∉ addedIds s.changes := by
    intro hm
    have := hInv.fresh _ (List.mem_append_left _ (mem_addedIds hm))
    simp [Change.cid] at this
  have hlt : ∀ ch ∈ s.changes ++ s.changesUndone, ch.cid ≠ s.nextId := by
    intro ch hch
    exact Nat.ne_of_lt (hInv.fresh ch hch)
  refine ⟨?_, ?_, ?_, ?_, ?_, ?_, ?_, ?_, ?_, ?_⟩
  · simp [onSvgClick]
  · simp [onSvgClick]
  · simp [onSvgClick, addedIds_append, addedIds, hInv.svgEq]
  · show (addedIds ((s.changes ++ [Change.circleAdded s.nextId]) ++ [])).Nodup
    rw [List.append_nil, addedIds_append, List.nodup_append]
    refine ⟨?_, List.nodup_singleton _, ?_⟩
    · have h0 := hInv.addsNodup
      rw [addedIds_append] at h0
      exact h0.of_append_left
    · intro a ha hb
      simp only [addedIds_singleton_add, List.mem_singleton] at hb
      subst hb
      exact hnotmem ha
  · intro ch hch
    simp only [onSvgClick, List.append_nil, List.mem_append, List.mem_singleton] at hch
    simp only [onSvgClick]
    rcases hch with hch | hch
    · exact Nat.lt_succ_of_lt (hInv.fresh ch (List.mem_append_left _ hch))
    · subst hch; exact Nat.lt_succ_self _
  · intro ch hch
    simp only [onSvgClick, List.append_nil, List.mem_append, List.mem_singleton] at hch
    rcases hch with hch | hch
    · have hne : ch.cid ≠ s.nextId := hlt ch (List.mem_append_left _ hch)
      simpa [onSvgClick, hne] using hInv.exist ch (List.mem_append_left _ hch)
    · subst hch; simp [onSvgClick, Change.cid]
  · have hrev : (onSvgClick x y s).changes.reverse =
        Change.circleAdded s.nextId :: s.changes.reverse := by
      simp [onSvgClick]
    rw [hrev]
    show chConsAux (getR (onSvgClick x y s)) (Change.circleAdded s.nextId :: s.changes.reverse)
    rw [chConsAux]
    rw [chConsAux_congr (getR (onSvgClick x y s)) (getR s) s.changes.reverse]
    · exact hInv.chCons
    · intro ch hch
      exact getR_onSvgClick_ne x y s
        (hlt ch (List.mem_append_left _ (List.mem_reverse.mp hch)))
  · simp [onSvgClick, cuConsAux]
  · simpa [onSvgClick] using hInv.ui
  · simpa [onSvgClick] using hInv.sel

lemma onUndoClick_nil {s : AppState} (h : s.changes = []) :
    onUndoClick s = { s with undoDisabled := true, redoDisabled := false } := by
  simp [onUndoClick, h]

lemma onRedoClick_nil {s : AppState} (h : s.changesUndone = []) :
    onRedoClick s = { s with redoDisabled := true, undoDisabled := false } := by
  simp [onRedoClick, h]

lemma onUndoClick_add {s : AppState} {l : List Change} {c : Nat}
    (hlc : s.changes = l ++ [Change.circleAdded c]) :
    onUndoClick s = { s with
      changes := l
      changesUndone := s.changesUndone ++ [Change.circleAdded c]
      svg := s.svg.erase c
      undoDisabled := if l.isEmpty then true else s.undoDisabled
      redoDisabled := false } := by
  simp [onUndoClick, hlc, List.getLast?_concat, List.dropLast_concat, applyUndo, removeCircle]

lemma onUndoClick_dc {s : AppState} {l : List Change} {c : Nat} {oldD newD : ℚ}
    (hlc : s.changes = l ++ [Change.diameterChange c oldD newD]) :
    onUndoClick s = { setR s c (oldD / 2) with
      changes := l
      changesUndone := s.changesUndone ++ [Change.diameterChange c oldD newD]
      undoDisabled := if l.isEmpty then true else s.undoDisabled
      redoDisabled := false } := by
  simp [onUndoClick, hlc, List.getLast?_concat, List.dropLast_concat, applyUndo, setR]

lemma onRedoClick_add {s : AppState} {l : List Change} {c : Nat}
    (hlc : s.changesUndone = l ++ [Change.circleAdded c]) :
    onRedoClick s = { s with
      changesUndone := l
      changes := s.changes ++ [Change.circleAdded c]
      svg := s.svg ++ [c]
      redoDisabled := if l.isEmpty then true else s.redoDisabled
      undoDisabled := false } := by
  simp [onRedoClick, hlc, List.getLast?_concat, List.dropLast_concat, applyRedo, addCircle]

lemma onRedoClick_dc {s : AppState} {l : List Change} {c : Nat} {oldD newD : ℚ}
    (hlc : s.changesUndone = l ++ [Change.diameterChange c oldD newD]) :
    onRedoClick s = { setR s c (newD / 2) with
      changesUndone := l
      changes := s.changes ++ [Change.diameterChange c oldD newD]
      redoDisabled := if l.isEmpty then true else s.redoDisabled
      undoDisabled := false } := by
  simp [onRedoClick, hlc, List.getLast?_concat, List.dropLast_concat, applyRedo, setR]

lemma inv_onUndoClick {s : AppState} (hInv : Inv s) (h : s.changes ≠ []) :
    Inv (onUndoClick s) := by
  rcases List.eq_nil_or_concat s.changes with h0 | ⟨l, ch, hlc⟩
  · exact absurd h0 h
  rw [List.concat_eq_append] at hlc
  have hUD : s.undoDisabled = false := by rw [hInv.undoBtn, hlc]; simp
  have hmemch : ch ∈ s.changes ++ s.changesUndone := by
    rw [hlc]; simp
  have hperm : ((l ++ [ch]) ++ s.changesUndone).Perm (l ++ (s.changesUndone ++ [ch])) := by
    rw [List.append_assoc]
    exact List.Perm.append_left l List.perm_append_comm
  have hpermA : (addedIds ((l ++ [ch]) ++ s.changesUndone)).Perm
      (addedIds (l ++ (s.changesUndone ++ [ch]))) := hperm.filterMap _
  have hmem : ∀ x : Change, x ∈ l ++ (s.changesUndone ++ [ch]) ↔
      x ∈ s.changes ++ s.changesUndone := by
    intro x
    rw [hlc]
    exact hperm.symm.mem_iff
  have hnodup : (addedIds (l ++ (s.changesUndone ++ [ch]))).Nodup := by
    refine hpermA.nodup_iff.mp ?_
    rw [← hlc]
    exact hInv.addsNodup
  have hchrev : s.changes.reverse = ch :: l.reverse := by
    rw [hlc, List.reverse_append]; simp
  cases ch with
  | circleAdded c =>
    have hsvg0 : s.svg = addedIds l ++ [c] := by
      rw [hInv.svgEq, hlc, addedIds_append]; simp
    have hcnot : c ∉ addedIds l := by
      have h0 := hInv.addsNodup
      rw [hlc, addedIds_append] at h0
      have h1 := h0.of_append_left
      rw [addedIds_append, addedIds_singleton_add] at h1
      intro hm
      rcases List.nodup_append.mp h1 with ⟨-, -, hdisj⟩
      exact hdisj hm (List.mem_singleton_self c)
    have herase : s.svg.erase c = addedIds l := by
      rw [hsvg0, List.erase_append_right _ hcnot, List.erase_cons_head, List.append_nil]
    rw [onUndoClick_add hlc]
    refine ⟨?_, ?_, ?_, ?_, ?_, ?_, ?_, ?_, ?_, ?_⟩
    · show (if l.isEmpty then true else s.undoDisabled) = l.isEmpty
      by_cases hl : l.isEmpty = true <;> simp [hl, hUD]
    · show false = (s.changesUndone ++ [Change.circleAdded c]).isEmpty
      simp
    · exact herase
    · exact hnodup
    · intro x hx
      exact hInv.fresh x ((hmem x).mp hx)
    · intro x hx
      exact hInv.exist x ((hmem x).mp hx)
    · show chConsAux (getR s) l.reverse
      have h2 := hInv.chCons
      rw [hchrev] at h2
      exact h2
    · show cuConsAux (getR s) (s.svg.erase c) ((s.changesUndone ++ [Change.circleAdded c]).reverse)
      rw [List.reverse_append]
      simp only [List.reverse_singleton, List.singleton_append]
      rw [cuConsAux]
      refine ⟨?_, ?_⟩
      · rw [herase]; exact hcnot
      · rw [herase, ← hsvg0]
        exact hInv.cuCons
    · exact hInv.ui
    · exact hInv.sel
  | diameterChange c oldD newD =>
    have hsome : (s.circleAttrs c).isSome = true := hInv.exist _ hmemch
    have hupd : getR (setR s c (oldD / 2)) = Function.update (getR s) c (oldD / 2) :=
      getR_setR _ hsome
    have hcc := hInv.chCons
    rw [hchrev, chConsAux] at hcc
    rw [onUndoClick_dc hlc]
    refine ⟨?_, ?_, ?_, ?_, ?_, ?_, ?_, ?_, ?_, ?_⟩
    · show (if l.isEmpty then true else s.undoDisabled) = l.isEmpty
      by_cases hl : l.isEmpty = true <;> simp [hl, hUD]
    · show false = (s.changesUndone ++ [Change.diameterChange c oldD newD]).isEmpty
      simp
    · show s.svg = addedIds l
      rw [hInv.svgEq, hlc, addedIds_append]; simp
    · exact hnodup
    · intro x hx
      exact hInv.fresh x ((hmem x).mp hx)
    · intro x hx
      show ((setR s c (oldD / 2)).circleAttrs x.cid).isSome = true
      rw [setR_isSome]
      exact hInv.exist x ((hmem x).mp hx)
    · show chConsAux (getR (setR s c (oldD / 2))) l.reverse
      rw [hupd]
      exact hcc.2
    · show cuConsAux (getR (setR s c (oldD / 2))) s.svg
        ((s.changesUndone ++ [Change.diameterChange c oldD newD]).reverse)
      rw [List.reverse_append]
      simp only [List.reverse_singleton, List.singleton_append]
      rw [cuConsAux]
      refine ⟨?_, ?_⟩
      · rw [hupd, Function.update_same]
      · rw [hupd, Function.update_idem, ← hcc.1, Function.update_eq_self]
        exact hInv.cuCons
    · exact hInv.ui
    · exact hInv.sel

lemma inv_onRedoClick {s : AppState} (hInv : Inv s) (h : s.changesUndone ≠ []) :
    Inv (onRedoClick s) := by
  rcases List.eq_nil_or_concat s.changesUndone with h0 | ⟨l, ch, hlc⟩
  · exact absurd h0 h
  rw [List.concat_eq_append] at hlc
  have hRD : s.redoDisabled = false := by rw [hInv.redoBtn, hlc]; simp
  have hmemch : ch ∈ s.changes ++ s.changesUndone := by
    rw [hlc]; simp
  have hperm : ((s.changes ++ [ch]) ++ l).Perm (s.changes ++ (l ++ [ch])) := by
    rw [List.append_assoc]
    exact List.Perm.append_left s.changes List.perm_append_comm
  have hpermA : (addedIds ((s.changes ++ [ch]) ++ l)).Perm
      (addedIds (s.changes ++ (l ++ [ch]))) := hperm.filterMap _
  have hmem : ∀ x : Change, x ∈ (s.changes ++ [ch]) ++ l ↔
      x ∈ s.changes ++ s.changesUndone := by
    intro x
    rw [hlc]
    exact hperm.mem_iff
  have hnodup : (addedIds ((s.changes ++ [ch]) ++ l)).Nodup := by
    refine hpermA.nodup_iff.mpr ?_
    rw [← hlc]
    exact hInv.addsNodup
  have hcurev : s.changesUndone.reverse = ch :: l.reverse := by
    rw [hlc, List.reverse_append]; simp
  have hcu := hInv.cuCons
  rw [hcurev] at hcu
  cases ch with
  | circleAdded c =>
    rw [cuConsAux] at hcu
    rw [onRedoClick_add hlc]
    refine ⟨?_, ?_, ?_, ?_, ?_, ?_, ?_, ?_, ?_, ?_⟩
    · show (false : Bool) = (s.changes ++ [Change.circleAdded c]).isEmpty
      simp
    · show (if l.isEmpty then true else s.redoDisabled) = l.isEmpty
      by_cases hl : l.isEmpty = true <;> simp [hl, hRD]
    · show s.svg ++ [c] = addedIds (s.changes ++ [Change.circleAdded c])
      rw [addedIds_append, addedIds_singleton_add, hInv.svgEq]
    · exact hnodup
    · intro x hx
      exact hInv.fresh x ((hmem x).mp hx)
    · intro x hx
      exact hInv.exist x ((hmem x).mp hx)
    · show chConsAux (getR s) ((s.changes ++ [Change.circleAdded c]).reverse)
      rw [List.reverse_append]
      simp only [List.reverse_singleton, List.singleton_append]
      rw [chConsAux]
      exact hInv.chCons
    · show cuConsAux (getR s) (s.svg ++ [c]) l.reverse
      exact hcu.2
    · exact hInv.ui
    · exact hInv.sel
  | diameterChange c oldD newD =>
    rw [cuConsAux] at hcu
    have hsome : (s.circleAttrs c).isSome = true := hInv.exist _ hmemch
    have hupd : getR (setR s c (newD / 2)) = Function.update (getR s) c (newD / 2) :=
      getR_setR _ hsome
    rw [onRedoClick_dc hlc]
    refine ⟨?_, ?_, ?_, ?_, ?_, ?_, ?_, ?_, ?_, ?_⟩
    · show (false : Bool) = (s.changes ++ [Change.diameterChange c oldD newD]).isEmpty
      simp
    · show (if l.isEmpty then true else s.redoDisabled) = l.isEmpty
      by_cases hl : l.isEmpty = true <;> simp [hl, hRD]
    · show s.svg = addedIds (s.changes ++ [Change.diameterChange c oldD newD])
      rw [addedIds_append, addedIds_singleton_dc, List.append_nil, hInv.svgEq]
    · exact hnodup
    · intro x hx
      exact hInv.fresh x ((hmem x).mp hx)
    · intro x hx
      show ((setR s c (newD / 2)).circleAttrs x.cid).isSome = true
      rw [setR_isSome]
      exact hInv.exist x ((hmem x).mp hx)
    · show chConsAux (getR (setR s c (newD / 2)))
        ((s.changes ++ [Change.diameterChange c oldD newD]).reverse)
      rw [List.reverse_append]
      simp only [List.reverse_singleton, List.singleton_append]
      rw [chConsAux]
      refine ⟨?_, ?_⟩
      · rw [hupd, Function.update_same]
      · rw [hupd, Function.update_idem, ← hcu.1, Function.update_eq_self]
        exact hInv.chCons
    · show cuConsAux (getR (setR s c (newD / 2))) s.svg l.reverse
      rw [hupd]
      exact hcu.2
    · exact hInv.ui
    · exact hInv.sel

lemma foldInputs (c : Nat) (d : ℚ) :
    ∀ (vs : List ℚ) (t : AppState), t.selected = some (c, d) →
      vs.foldl (fun u v => onDiameterInput v u) t =
        (match vs.getLast? with
          | none => t
          | some v => setR t c (v / 2)) := by
  intro vs
  induction vs with
  | nil => intro t ht; simp
  | cons v rest ih =>
    intro t ht
    have h1 : onDiameterInput v t = setR t c (v / 2) := by
      simp [onDiameterInput, ht]
    have hsel2 : (setR t c (v / 2)).selected = some (c, d) := by simp [setR, ht]
    rw [List.foldl_cons, h1, ih _ hsel2]
    cases rest with
    | nil => simp
    | cons w ws =>
      rw [List.getLast?_cons_cons]
      rcases hg : (w :: ws).getLast? with _ | u
      · simp [List.getLast?_eq_none_iff] at hg
      · simp [setR_setR]

lemma getR_setR_same {s : AppState} {c : Nat} (v : ℚ)
    (h : (s.circleAttrs c).isSome = true) :
    getR (setR s c v) c = v := by
  rw [getR_setR v h, Function.update_same]

lemma menuCancelOp_eq (c : Nat) (s : AppState) :
    menuCancelOp c s = { s with
      undoDisabled := if s.changes.isEmpty then true else false
      redoDisabled := if s.changesUndone.isEmpty then true else false
      selected := none
      uiState := UIState.default
      menuVisible := false
      formVisible := false
      svgDisabled := false } := by
  simp [menuCancelOp, onMenuCloseClick, onCircleRightClick, stateSet, onStateChange]

lemma rightAdjust_selected (c : Nat) (s : AppState) :
    (onAdjustDiameterClick (onCircleRightClick c s)).selected = some (c, getR s c * 2) := by
  simp [onAdjustDiameterClick, onCircleRightClick, stateSet, onStateChange]

lemma diamChangeOp_nil (c : Nat) (s : AppState) :
    diamChangeOp c [] s = { s with
      undoDisabled := if s.changes.isEmpty then true else false
      redoDisabled := if s.changesUndone.isEmpty then true else false
      selected := none
      uiState := UIState.default
      menuVisible := false
      formVisible := false
      svgDisabled := false } := by
  unfold diamChangeOp
  rw [foldInputs c (getR s c * 2) [] _ (rightAdjust_selected c s)]
  simp [onFormCloseClick, logDiameterChange, onAdjustDiameterClick, onCircleRightClick,
    stateSet, onStateChange, getR]

lemma rightAdjust_eq (c : Nat) (s : AppState) :
    onAdjustDiameterClick (onCircleRightClick c s) =
      { s with selected := some (c, getR s c * 2), uiState := UIState.formOpen,
               menuVisible := false, formVisible := true,
               undoDisabled := true, redoDisabled := true, svgDisabled := true } := by
  simp [onAdjustDiameterClick, onCircleRightClick, stateSet, onStateChange]

lemma logDiameterChange_ne {t : AppState} {c : Nat} {d : ℚ}
    (hsel : t.selected = some (c, d)) (hne : getR t c * 2 ≠ d) :
    logDiameterChange t = { t with
      changes := t.changes ++ [Change.diameterChange c d (getR t c * 2)]
      changesUndone := []
      undoDisabled := false
      redoDisabled := true } := by
  simp [logDiameterChange, hsel, hne]

lemma logDiameterChange_noop {t : AppState} {c : Nat} {d : ℚ}
    (hsel : t.selected = some (c, d)) (heq : getR t c * 2 = d) :
    logDiameterChange t = t := by
  simp [logDiameterChange, hsel, heq]

lemma stateSet_default_eq (t : AppState) :
    stateSet UIState.default t = { t with
      undoDisabled := if t.changes.isEmpty then t.undoDisabled else false
      redoDisabled := if t.changesUndone.isEmpty then t.redoDisabled else false
      svgDisabled := false
      selected := none
      uiState := UIState.default
      menuVisible := false
      formVisible := false } := by
  simp [stateSet, onStateChange]

lemma diamChangeOp_some {c : Nat} {vs : List ℚ} {v : ℚ} (s : AppState)
    (hlast : vs.getLast? = some v) :
    diamChangeOp c vs s =
      onFormCloseClick (setR (onAdjustDiameterClick (onCircleRightClick c s)) c (v / 2)) := by
  unfold diamChangeOp
  rw [foldInputs c (getR s c * 2) vs _ (rightAdjust_selected c s), hlast]

lemma diamChangeOp_eqDiam {c : Nat} {vs : List ℚ} {v : ℚ} (s : AppState)
    (hsome : (s.circleAttrs c).isSome = true) (hlast : vs.getLast? = some v)
    (heq : v = getR s c * 2) :
    diamChangeOp c vs s = { s with
      undoDisabled := if s.changes.isEmpty then true else false
      redoDisabled := if s.changesUndone.isEmpty then true else false
      selected := none
      uiState := UIState.default
      menuVisible := false
      formVisible := false
      svgDisabled := false } := by
  have hv2 : v / 2 = getR s c := by
    rw [heq, mul_div_cancel_right₀ _ (two_ne_zero)]
  have hsome2 : ((onAdjustDiameterClick (onCircleRightClick c s)).circleAttrs c).isSome
      = true := by
    rw [rightAdjust_eq]; exact hsome
  have hcollapse : setR (onAdjustDiameterClick (onCircleRightClick c s)) c (v / 2) =
      onAdjustDiameterClick (onCircleRightClick c s) := by
    rw [hv2]
    exact setR_self hsome2
  rw [diamChangeOp_some s hlast, hcollapse, onFormCloseClick,
    logDiameterChange_noop (rightAdjust_selected c s) rfl, stateSet_default_eq,
    rightAdjust_eq]

lemma diamChangeOp_logged {c : Nat} {vs : List ℚ} {v : ℚ} (s : AppState)
    (hsome : (s.circleAttrs c).isSome = true) (hlast : vs.getLast? = some v)
    (hne : v ≠ getR s c * 2) :
    diamChangeOp c vs s = { setR s c (v / 2) with
      changes := s.changes ++ [Change.diameterChange c (getR s c * 2) v]
      changesUndone := []
      undoDisabled := false
      redoDisabled := true
      selected := none
      uiState := UIState.default
      menuVisible := false
      formVisible := false
      svgDisabled := false } := by
  have hsome2 : ((onAdjustDiameterClick (onCircleRightClick c s)).circleAttrs c).isSome
      = true := by
    rw [rightAdjust_eq]; exact hsome
  have hsel : (setR (onAdjustDiameterClick (onCircleRightClick c s)) c (v / 2)).selected
      = some (c, getR s c * 2) := by
    rw [rightAdjust_eq]; simp [setR]
  have hget2 : getR (setR (onAdjustDiameterClick (onCircleRightClick c s)) c (v / 2)) c * 2
      = v := by
    rw [getR_setR_same _ hsome2, div_mul_cancel₀ _ (two_ne_zero)]
  rw [diamChangeOp_some s hlast, onFormCloseClick,
    logDiameterChange_ne hsel (by rw [hget2]; exact hne), hget2, stateSet_default_eq]
  ext i
  all_goals rw [rightAdjust_eq]
  all_goals simp [setR]

lemma inv_recompute {s : AppState} (hInv : Inv s) :
    Inv { s with
      undoDisabled := if s.changes.isEmpty then true else false
      redoDisabled := if s.changesUndone.isEmpty then true else false
      selected := none
      uiState := UIState.default
      menuVisible := false
      formVisible := false
      svgDisabled := false } := by
  refine ⟨?_, ?_, hInv.svgEq, hInv.addsNodup, hInv.fresh, hInv.exist, hInv.chCons,
    hInv.cuCons, rfl, rfl⟩
  · show (if s.changes.isEmpty then true else false) = s.changes.isEmpty
    by_cases h : s.changes.isEmpty = true <;> simp [h]
  · show (if s.changesUndone.isEmpty then true else false) = s.changesUndone.isEmpty
    by_cases h : s.changesUndone.isEmpty = true <;> simp [h]

lemma inv_menuCancelOp (c : Nat) {s : AppState} (hInv : Inv s) : Inv (menuCancelOp c s) := by
  rw [menuCancelOp_eq]
  exact inv_recompute hInv

lemma svg_isSome {s : AppState} (hInv : Inv s) {c : Nat} (hc : c ∈ s.svg) :
    (s.circleAttrs c).isSome = true := by
  have hmem : Change.circleAdded c ∈ s.changes := mem_addedIds (hInv.svgEq ▸ hc)
  exact hInv.exist _ (List.mem_append_left _ hmem)

lemma svg_lt_nextId {s : AppState} (hInv : Inv s) {c : Nat} (hc : c ∈ s.svg) :
    c < s.nextId := by
  have hmem : Change.circleAdded c ∈ s.changes := mem_addedIds (hInv.svgEq ▸ hc)
  exact hInv.fresh _ (List.mem_append_left _ hmem)

lemma inv_diamChangeOp (c : Nat) (vs : List ℚ) {s : AppState} (hInv : Inv s)
    (hc : c ∈ s.svg) : Inv (diamChangeOp c vs s) := by
  have hsome : (s.circleAttrs c).isSome = true := svg_isSome hInv hc
  have hclt : c < s.nextId := svg_lt_nextId hInv hc
  rcases hg : vs.getLast? with _ | v
  · have hvs : vs = [] := by simpa [List.getLast?_eq_none_iff] using hg
    subst hvs
    rw [diamChangeOp_nil]
    exact inv_recompute hInv
  · by_cases hv : v = getR s c * 2
    · rw [diamChangeOp_eqDiam s hsome hg hv]
      exact inv_recompute hInv
    · rw [diamChangeOp_logged s hsome hg hv]
      have hupd : getR (setR s c (v / 2)) = Function.update (getR s) c (v / 2) :=
        getR_setR _ hsome
      refine ⟨?_, ?_, ?_, ?_, ?_, ?_, ?_, ?_, rfl, rfl⟩
      · show (false : Bool) =
          (s.changes ++ [Change.diameterChange c (getR s c * 2) v]).isEmpty
        simp
      · rfl
      · show s.svg = addedIds (s.changes ++ [Change.diameterChange c (getR s c * 2) v])
        rw [addedIds_append, addedIds_singleton_dc, List.append_nil]
        exact hInv.svgEq
      · show (addedIds ((s.changes ++ [Change.diameterChange c (getR s c * 2) v]) ++ [])).Nodup
        rw [List.append_nil, addedIds_append, addedIds_singleton_dc, List.append_nil]
        have h0 := hInv.addsNodup
        rw [addedIds_append] at h0
        exact h0.of_append_left
      · intro x hx
        rw [List.append_nil, List.mem_append] at hx
        rcases hx with hx | hx
        · exact hInv.fresh x (List.mem_append_left _ hx)
        · rw [List.mem_singleton] at hx
          subst hx
          exact hclt
      · intro x hx
        rw [List.append_nil, List.mem_append] at hx
        show ((setR s c (v / 2)).circleAttrs x.cid).isSome = true
        rw [setR_isSome]
        rcases hx with hx | hx
        · exact hInv.exist x (List.mem_append_left _ hx)
        · rw [List.mem_singleton] at hx
          subst hx
          exact hsome
      · show chConsAux (getR (setR s c (v / 2)))
          ((s.changes ++ [Change.diameterChange c (getR s c * 2) v]).reverse)
        rw [List.reverse_append]
        simp only [List.reverse_singleton, List.singleton_append]
        rw [chConsAux]
        refine ⟨?_, ?_⟩
        · rw [hupd, Function.update_same]
        · rw [hupd, Function.update_idem,
            mul_div_cancel_right₀ (getR s c) (two_ne_zero), Function.update_eq_self]
          exact hInv.chCons
      · show cuConsAux (getR (setR s c (v / 2))) s.svg ([] : List Change).reverse
        rw [List.reverse_nil]
        exact trivial

theorem reach_inv {s : AppState} (hs : Reach s) : Inv s := by
  induction hs with
  | init => exact inv_initial
  | svgClick x y hr hui ih => exact inv_onSvgClick x y ih
  | diamChange c vs hr hui hc ih => exact inv_diamChangeOp c vs ih hc
  | menuCancel c hr hui hc ih => exact inv_menuCancelOp c ih
  | undo hr hg ih =>
    apply inv_onUndoClick ih
    intro h0
    rw [ih.undoBtn, h0] at hg
    simp at hg
  | redo hr hg ih =>
    apply inv_onRedoClick ih
    intro h0
    rw [ih.redoBtn, h0] at hg
    simp at hg

lemma onUndoClick_changes (s : AppState) : (onUndoClick s).changes = s.changes.dropLast := by
  rcases List.eq_nil_or_concat s.changes with h0 | ⟨l, ch, hlc⟩
  · rw [onUndoClick_nil h0, h0]; rfl
  · rw [List.concat_eq_append] at hlc
    cases ch with
    | circleAdded c => rw [onUndoClick_add hlc, hlc, List.dropLast_concat]
    | diameterChange c o n => rw [onUndoClick_dc hlc, hlc, List.dropLast_concat]

lemma rewind : ∀ (n : Nat) (s : AppState), Inv s → s.changes.length = n →
    (undoIter n s).changes = [] ∧ (undoIter n s).svg = [] := by
  intro n
  induction n with
  | zero =>
    intro s hInv hlen
    have h0 : s.changes = [] := List.length_eq_zero.mp hlen
    refine ⟨h0, ?_⟩
    rw [show undoIter 0 s = s from rfl, hInv.svgEq, h0]
    rfl
  | succ n ih =>
    intro s hInv hlen
    have hne : s.changes ≠ [] := by
      intro h0; rw [h0] at hlen; simp at hlen
    have hlen2 : (onUndoClick s).changes.length = n := by
      rw [onUndoClick_changes, List.length_dropLast, hlen]
      rfl
    exact ih (onUndoClick s) (inv_onUndoClick hInv hne) hlen2

lemma finalDiam_ne_last {d : ℚ} {vs : List ℚ} (h : finalDiam d vs ≠ d) :
    ∃ v, vs.getLast? = some v ∧ v ≠ d := by
  rcases hg : vs.getLast? with _ | v
  · exfalso; apply h; simp [finalDiam, hg]
  · exact ⟨v, rfl, by simpa [finalDiam, hg] using h⟩

lemma editSeq_reach : ∀ {s : AppState} {es : List Edit} {t : AppState},
    EditSeq s es t → Reach s →
    Reach t ∧ t.changes.length = s.changes.length + es.length := by
  intro s es t hseq
  induction hseq with
  | nil => intro hs; exact ⟨hs, by simp⟩
  | cons e es hok hrest ih =>
    intro hs
    rename_i s' t'
    have hmain : Reach (applyEdit e s') ∧
        (applyEdit e s').changes.length = s'.changes.length + 1 := by
      cases e with
      | add x y =>
        refine ⟨Reach.svgClick x y hs hok, ?_⟩
        simp [applyEdit, onSvgClick]
      | dc c vs =>
        obtain ⟨hui, hc, hdiff⟩ := hok
        refine ⟨Reach.diamChange c vs hs hui hc, ?_⟩
        obtain ⟨v, hg, hv⟩ := finalDiam_ne_last hdiff
        have hsome := svg_isSome (reach_inv hs) hc
        show (diamChangeOp c vs s').changes.length = s'.changes.length + 1
        rw [diamChangeOp_logged s' hsome hg hv]
        simp
    obtain ⟨hr1, hl1⟩ := hmain
    obtain ⟨hr2, hl2⟩ := ih hr1
    refine ⟨hr2, ?_⟩
    rw [hl2, hl1, List.length_cons]
    omega

lemma reach_stateA : Reach stateA := Reach.svgClick 10 10 Reach.init rfl

lemma reach_stateAB : Reach stateAB := Reach.svgClick 50 50 reach_stateA rfl

/-- C2: after every operation of an arbitrary user-operation sequence
(recorded edits, undos, redos — the states `Reach` generates), the undo
control is enabled exactly when the undo stack `changes` is non-empty and
the redo control is enabled exactly when the redo stack `changesUndone`
is non-empty. -/
theorem C2_enablement_mirrors_stacks (s : AppState) (hs : Reach s) :
    (s.undoDisabled = false ↔ s.changes ≠ []) ∧
    (s.redoDisabled = false ↔ s.changesUndone ≠ []) := by
  have hInv := reach_inv hs
  constructor
  · rw [hInv.undoBtn]
    cases s.changes <;> simp
  · rw [hInv.redoBtn]
    cases s.changesUndone <;> simp

/-- C2 witness: the invariant evaluated in the state reached by placing
one circle. -/
theorem C2_enablement_mirrors_stacks_witness :
    (stateA.undoDisabled = false ↔ stateA.changes ≠ []) ∧
    (stateA.redoDisabled = false ↔ stateA.changesUndone ≠ []) :=
  C2_enablement_mirrors_stacks stateA reach_stateA

/-- C3: undo on an empty undo stack leaves both stacks and all circles
(surface membership and attributes) unchanged; on a non-empty stack it
pops the last change record, pushes it onto the redo stack, and applies
its inverse effect — a `circleAdded` record's circle is removed from the
surface (attributes untouched), a `diameterChange` record's circle gets
its diameter set back to `oldDiameter`. -/
theorem C3_undo_operation (s : AppState) :
    (s.changes = [] →
      (onUndoClick s).changes = s.changes ∧
      (onUndoClick s).changesUndone = s.changesUndone ∧
      (onUndoClick s).svg = s.svg ∧
      (onUndoClick s).circleAttrs = s.circleAttrs) ∧
    (∀ l ch, s.changes = l ++ [ch] →
      (onUndoClick s).changes = l ∧
      (onUndoClick s).changesUndone = s.changesUndone ++ [ch] ∧
      (∀ c, ch = Change.circleAdded c →
        (onUndoClick s).svg = s.svg.erase c ∧
        (onUndoClick s).circleAttrs = s.circleAttrs) ∧
      (∀ c oldD newD, ch = Change.diameterChange c oldD newD →
        (onUndoClick s).svg = s.svg ∧
        ((s.circleAttrs c).isSome = true → getR (onUndoClick s) c * 2 = oldD))) := by
  constructor
  · intro h0
    rw [onUndoClick_nil h0]
    exact ⟨rfl, rfl, rfl, rfl⟩
  · intro l ch hlc
    cases ch with
    | circleAdded c =>
      rw [onUndoClick_add hlc]
      refine ⟨rfl, rfl, ?_, ?_⟩
      · intro c0 hc0
        cases hc0
        exact ⟨rfl, rfl⟩
      · intro c0 o0 n0 hc0
        cases hc0
    | diameterChange c oldD newD =>
      rw [onUndoClick_dc hlc]
      refine ⟨rfl, rfl, ?_, ?_⟩
      · intro c0 hc0
        cases hc0
      · intro c0 o0 n0 hc0
        cases hc0
        refine ⟨rfl, fun hsome => ?_⟩
        show getR (setR s c (oldD / 2)) c * 2 = oldD
        rw [getR_setR_same _ hsome, div_mul_cancel₀ _ (two_ne_zero)]

/-- C3 witness: undo applied in the two-circle state pops the second add
and erases its circle, and undo applied at the fresh page is a no-op on
the stacks and the surface. -/
theorem C3_undo_operation_witness :
    (onUndoClick stateAB).changes = [Change.circleAdded 0] ∧
    (onUndoClick stateAB).changesUndone =
      stateAB.changesUndone ++ [Change.circleAdded 1] ∧
    (onUndoClick stateAB).svg = stateAB.svg.erase 1 ∧
    (onUndoClick initialState).changes = initialState.changes ∧
    (onUndoClick initialState).svg = initialState.svg := by
  have h := (C3_undo_operation stateAB).2 [Change.circleAdded 0]
    (Change.circleAdded 1) (by decide)
  have h0 := (C3_undo_operation initialState).1 rfl
  exact ⟨h.1, h.2.1, (h.2.2.1 1 rfl).1, h0.1, h0.2.2.1⟩

/-- C4: redo on an empty redo stack leaves both stacks and all circles
unchanged; on a non-empty stack it pops the most recently undone record,
pushes it back onto the undo stack, and re-applies its forward effect —
a `circleAdded` record's circle is appended back to the surface, a
`diameterChange` record's circle gets its diameter set to `newDiameter`. -/
theorem C4_redo_operation (s : AppState) :
    (s.changesUndone = [] →
      (onRedoClick s).changes = s.changes ∧
      (onRedoClick s).changesUndone = s.changesUndone ∧
      (onRedoClick s).svg = s.svg ∧
      (onRedoClick s).circleAttrs = s.circleAttrs) ∧
    (∀ l ch, s.changesUndone = l ++ [ch] →
      (onRedoClick s).changesUndone = l ∧
      (onRedoClick s).changes = s.changes ++ [ch] ∧
      (∀ c, ch = Change.circleAdded c →
        (onRedoClick s).svg = s.svg ++ [c] ∧
        (onRedoClick s).circleAttrs = s.circleAttrs) ∧
      (∀ c oldD newD, ch = Change.diameterChange c oldD newD →
        (onRedoClick s).svg = s.svg ∧
        ((s.circleAttrs c).isSome = true → getR (onRedoClick s) c * 2 = newD))) := by
  constructor
  · intro h0
    rw [onRedoClick_nil h0]
    exact ⟨rfl, rfl, rfl, rfl⟩
  · intro l ch hlc
    cases ch with
    | circleAdded c =>
      rw [onRedoClick_add hlc]
      refine ⟨rfl, rfl, ?_, ?_⟩
      · intro c0 hc0
        cases hc0
        exact ⟨rfl, rfl⟩
      · intro c0 o0 n0 hc0
        cases hc0
    | diameterChange c oldD newD =>
      rw [onRedoClick_dc hlc]
      refine ⟨rfl, rfl, ?_, ?_⟩
      · intro c0 hc0
        cases hc0
      · intro c0 o0 n0 hc0
        cases hc0
        refine ⟨rfl, fun hsome => ?_⟩
        show getR (setR s c (newD / 2)) c * 2 = newD
        rw [getR_setR_same _ hsome, div_mul_cancel₀ _ (two_ne_zero)]

/-- C4 witness: redo after one undo in the two-circle state re-appends
the undone circle and its record, and redo at the fresh page is a no-op
on the stacks and the surface. -/
theorem C4_redo_operation_witness :
    (onRedoClick (onUndoClick stateAB)).changesUndone = [] ∧
    (onRedoClick (onUndoClick stateAB)).changes =
      (onUndoClick stateAB).changes ++ [Change.circleAdded 1] ∧
    (onRedoClick (onUndoClick stateAB)).svg = (onUndoClick stateAB).svg ++ [1] ∧
    (onRedoClick initialState).changes = initialState.changes ∧
    (onRedoClick initialState).svg = initialState.svg := by
  have h := (C4_redo_operation (onUndoClick stateAB)).2 []
    (Change.circleAdded 1) (by decide)
  have h0 := (C4_redo_operation initialState).1 rfl
  exact ⟨h.1, h.2.1, (h.2.2.1 1 rfl).1, h0.1, h0.2.2.1⟩

/-- C10: the undo handler ends by unconditionally enabling the redo
control, and the redo handler ends by unconditionally enabling the undo
control — in every state, including those where the popped-from stack is
empty and the operation is otherwise a no-op. -/
theorem C10_handlers_enable_opposite (s : AppState) :
    (onUndoClick s).redoDisabled = false ∧ (onRedoClick s).undoDisabled = false := by
  constructor
  · rcases List.eq_nil_or_concat s.changes with h0 | ⟨l, ch, hlc⟩
    · rw [onUndoClick_nil h0]
    · rw [List.concat_eq_append] at hlc
      cases ch with
      | circleAdded c => rw [onUndoClick_add hlc]
      | diameterChange c o n => rw [onUndoClick_dc hlc]
  · rcases List.eq_nil_or_concat s.changesUndone with h0 | ⟨l, ch, hlc⟩
    · rw [onRedoClick_nil h0]
    · rw [List.concat_eq_append] at hlc
      cases ch with
      | circleAdded c => rw [onRedoClick_add hlc]
      | diameterChange c o n => rw [onRedoClick_dc hlc]

/-- C5: for every reachable state whose undo stack is non-empty, undo
followed by redo restores the complete state — stacks, surface, circle
attributes, control enablement, selection and UI state:
`redo(undo(s)) = s`. -/
theorem C5_undo_redo_roundtrip (s : AppState) (hs : Reach s) (h : s.changes ≠ []) :
    onRedoClick (onUndoClick s) = s := by
  have hInv := reach_inv hs
  rcases List.eq_nil_or_concat s.changes with h0 | ⟨l, ch, hlc⟩
  · exact absurd h0 h
  rw [List.concat_eq_append] at hlc
  have hUD : s.undoDisabled = false := by rw [hInv.undoBtn, hlc]; simp
  have hchrev : s.changes.reverse = ch :: l.reverse := by
    rw [hlc, List.reverse_append]; simp
  cases ch with
  | circleAdded c =>
    have hsvg0 : s.svg = addedIds l ++ [c] := by
      rw [hInv.svgEq, hlc, addedIds_append]; simp
    have hcnot : c ∉ addedIds l := by
      have h0 := hInv.addsNodup
      rw [hlc, addedIds_append] at h0
      have h1 := h0.of_append_left
      rw [addedIds_append, addedIds_singleton_add] at h1
      intro hm
      rcases List.nodup_append.mp h1 with ⟨-, -, hdisj⟩
      exact hdisj hm (List.mem_singleton_self c)
    have herase : s.svg.erase c = addedIds l := by
      rw [hsvg0, List.erase_append_right _ hcnot, List.erase_cons_head, List.append_nil]
    rw [onUndoClick_add hlc]
    rw [@onRedoClick_add _ s.changesUndone c rfl]
    refine AppState.ext rfl rfl ?_ hlc.symm rfl ?_ ?_ rfl rfl rfl rfl rfl
    · show s.svg.erase c ++ [c] = s.svg
      rw [herase, ← hsvg0]
    · show (false : Bool) = s.undoDisabled
      exact hUD.symm
    · show (if s.changesUndone.isEmpty then true else false) = s.redoDisabled
      rw [hInv.redoBtn]
      by_cases hcu : s.changesUndone.isEmpty = true <;> simp [hcu]
  | diameterChange c oldD newD =>
    have hsome : (s.circleAttrs c).isSome = true :=
      hInv.exist (Change.diameterChange c oldD newD) (by rw [hlc]; simp)
    obtain ⟨d, hd⟩ := Option.isSome_iff_exists.mp hsome
    have hdr : d.r = newD / 2 := by
      have hcc := hInv.chCons
      rw [hchrev, chConsAux] at hcc
      have h1 := hcc.1
      rw [getR, hd] at h1
      simpa using h1
    rw [onUndoClick_dc hlc]
    rw [@onRedoClick_dc _ s.changesUndone c oldD newD rfl]
    refine AppState.ext rfl ?_ rfl hlc.symm rfl ?_ ?_ rfl rfl rfl rfl rfl
    · show (setR (setR s c (oldD / 2)) c (newD / 2)).circleAttrs = s.circleAttrs
      rw [setR_setR]
      funext i
      by_cases hic : i = c
      · subst hic
        rw [show (setR s i (newD / 2)).circleAttrs i =
            (s.circleAttrs i).map (fun d0 => { d0 with r := newD / 2 }) by simp [setR]]
        rw [hd]
        show some { d with r := newD / 2 } = some d
        rw [← hdr]
      · simp [setR, hic]
    · show (false : Bool) = s.undoDisabled
      exact hUD.symm
    · show (if s.changesUndone.isEmpty then true else false) = s.redoDisabled
      rw [hInv.redoBtn]
      by_cases hcu : s.changesUndone.isEmpty = true <;> simp [hcu]

/-- C5 witness: the round trip evaluated in the one-circle state. -/
theorem C5_undo_redo_roundtrip_witness :
    onRedoClick (onUndoClick stateA) = stateA :=
  C5_undo_redo_roundtrip stateA reach_stateA (by decide)

/-- C6: starting from any reachable state whose undo stack is empty, after
any sequence of N user edits (circle placements and confirmed diameter
changes), N undo clicks restore the visual state that held before the
first edit: the surface holds exactly the circles it held then, and every
circle then on the surface has its old radius. -/
theorem C6_full_rewind (s0 t : AppState) (es : List Edit) (h0 : Reach s0)
    (hempty : s0.changes = []) (hes : EditSeq s0 es t) :
    (undoIter es.length t).svg = s0.svg ∧
    ∀ c ∈ s0.svg, getR (undoIter es.length t) c = getR s0 c := by
  have hInv0 := reach_inv h0
  have hsvg0 : s0.svg = [] := by rw [hInv0.svgEq, hempty]; rfl
  obtain ⟨hrt, hlen⟩ := editSeq_reach hes h0
  rw [hempty] at hlen
  simp only [List.length_nil, Nat.zero_add] at hlen
  have hrw := rewind es.length t (reach_inv hrt) hlen
  refine ⟨?_, ?_⟩
  · rw [hrw.2, hsvg0]
  · intro c hc
    rw [hsvg0] at hc
    cases hc

/-- C6 witness: two circle placements followed by two undos leave the
surface as it was on the fresh page. -/
theorem C6_full_rewind_witness :
    (undoIter 2 stateAB).svg = initialState.svg ∧
    ∀ c ∈ initialState.svg, getR (undoIter 2 stateAB) c = getR initialState c :=
  C6_full_rewind initialState stateAB [Edit.add 10 10, Edit.add 50 50] Reach.init rfl
    (EditSeq.cons (Edit.add 10 10) [Edit.add 50 50] rfl
      (EditSeq.cons (Edit.add 50 50) [] rfl EditSeq.nil))

/-- C7: closing the adjustment form appends a `diameterChange` record
exactly when the diameter at close time differs from the selection
snapshot; when they are equal no record is created and both stacks are
left unchanged. -/
theorem C7_log_iff_diameter_differs (s : AppState) (c : Nat) (d : ℚ)
    (hsel : s.selected = some (c, d)) :
    (onFormCloseClick s).changes =
      (if getR s c * 2 ≠ d
        then s.changes ++ [Change.diameterChange c d (getR s c * 2)]
        else s.changes) ∧
    (onFormCloseClick s).changesUndone =
      (if getR s c * 2 ≠ d then [] else s.changesUndone) := by
  by_cases hne : getR s c * 2 ≠ d
  · rw [onFormCloseClick, logDiameterChange_ne hsel hne, stateSet_default_eq,
      if_pos hne, if_pos hne]
    exact ⟨rfl, rfl⟩
  · rw [onFormCloseClick, logDiameterChange_noop hsel (not_not.mp hne), stateSet_default_eq,
      if_neg hne, if_neg hne]
    exact ⟨rfl, rfl⟩

/-- C7 witness: closing the form without touching the slider in the
one-circle form-open state logs nothing and leaves both stacks as they
were. -/
theorem C7_log_iff_diameter_differs_witness :
    (onFormCloseClick stateForm).changes =
      (if getR stateForm 0 * 2 ≠ getR stateA 0 * 2
        then stateForm.changes ++
          [Change.diameterChange 0 (getR stateA 0 * 2) (getR stateForm 0 * 2)]
        else stateForm.changes) ∧
    (onFormCloseClick stateForm).changesUndone =
      (if getR stateForm 0 * 2 ≠ getR stateA 0 * 2 then []
        else stateForm.changesUndone) :=
  C7_log_iff_diameter_differs stateForm 0 (getR stateA 0 * 2) rfl

/-- C1: from every reachable state, a user edit — placing a circle, or a
whole diameter-adjustment session whose final diameter differs from the
selection snapshot — empties the redo stack (leaving redo disabled) and
appends exactly one new record at the end of the undo stack; in
particular after add A; add B; undo; add C the redo stack is empty and
redo is unavailable. -/
theorem C1_edit_clears_redo_appends_one (s : AppState) (hs : Reach s)
    (x y : ℚ) (c : Nat) (vs : List ℚ) (hc : c ∈ s.svg)
    (hdiff : finalDiam (getR s c * 2) vs ≠ getR s c * 2) :
    ((onSvgClick x y s).changesUndone = [] ∧ (onSvgClick x y s).redoDisabled = true ∧
      (onSvgClick x y s).changes = s.changes ++ [Change.circleAdded s.nextId]) ∧
    ((diamChangeOp c vs s).changesUndone = [] ∧ (diamChangeOp c vs s).redoDisabled = true ∧
      (diamChangeOp c vs s).changes = s.changes ++
        [Change.diameterChange c (getR s c * 2) (finalDiam (getR s c * 2) vs)]) ∧
    ((onSvgClick 5 5 (onUndoClick stateAB)).changesUndone = [] ∧
      (onSvgClick 5 5 (onUndoClick stateAB)).redoDisabled = true) := by
  obtain ⟨v, hg, hv⟩ := finalDiam_ne_last hdiff
  have hsome := svg_isSome (reach_inv hs) hc
  have hfd : finalDiam (getR s c * 2) vs = v := by simp [finalDiam, hg]
  refine ⟨⟨rfl, rfl, rfl⟩, ⟨?_, ?_, ?_⟩, rfl, rfl⟩
  · rw [diamChangeOp_logged s hsome hg hv]
  · rw [diamChangeOp_logged s hsome hg hv]
  · rw [diamChangeOp_logged s hsome hg hv, hfd]

/-- C1 witness: in the one-circle state, a diameter session ending at 100
clears the redo stack and logs one record, and a circle placement appends
one `circleAdded` record. -/
theorem C1_edit_clears_redo_appends_one_witness :
    (diamChangeOp 0 [100] stateA).changesUndone = [] ∧
    (diamChangeOp 0 [100] stateA).redoDisabled = true ∧
    (onSvgClick 20 20 stateA).changes =
      stateA.changes ++ [Change.circleAdded stateA.nextId] := by
  have h := C1_edit_clears_redo_appends_one stateA reach_stateA 20 20 0 [100]
    (by decide)
    (by norm_num [finalDiam, getR, stateA, onSvgClick, initialState, DEFAULT_DIAMETER])
  exact ⟨h.2.1.1, h.2.1.2.1, h.1.2.2⟩

/-- C8 counterexample: in the reachable menu-open state (one circle
placed, then right-clicked), the right-click-on-circle trigger is not
among the transitions defined for menuOpen, yet dispatching it raises no
error — it returns `Except.ok` — and is performed: the circle is
re-selected and menuOpen is re-entered. This refutes the claim that such
a trigger fails fast with a fatal error rather than being silently
performed. -/
theorem C8_counterexample :
    stateMenu.uiState = UIState.menuOpen ∧
    handleTrigger (Trigger.circleRightClick 0) stateMenu =
      Except.ok (onCircleRightClick 0 stateMenu) ∧
    (onCircleRightClick 0 stateMenu).uiState = UIState.menuOpen ∧
    (onCircleRightClick 0 stateMenu).selected = some (0, getR stateMenu 0 * 2) ∧
    getR stateMenu 0 = 24 :=
  ⟨rfl, rfl, rfl, rfl, rfl⟩

/-- C8 amended: the source fails fast only on an unknown state value
passed to the state setter and on an unknown change tag during replay
(both unreachable with the closed unions of this embedding); a defined
trigger arriving in a state whose transition table does not list it —
right-click-on-circle while a selection is active in menuOpen or
formOpen — raises no error and is silently performed: the handler
re-selects the target circle and (re-)enters menuOpen. Prevention of
such triggers relies on the UI disabling surface interaction, not on a
runtime check. -/
theorem C8_amended_trigger_silently_performed (s : AppState) (c : Nat)
    (h : s.uiState ≠ UIState.default) :
    handleTrigger (Trigger.circleRightClick c) s =
      Except.ok (onCircleRightClick c s) ∧
    (onCircleRightClick c s).uiState = UIState.menuOpen ∧
    (onCircleRightClick c s).selected = some (c, getR s c * 2) ∧
    (onCircleRightClick c s).menuVisible = true :=
  ⟨rfl, rfl, rfl, rfl⟩

/-- C8 amended witness: dispatching the circle right-click in the
menu-open state re-enters menuOpen with the menu shown. -/
theorem C8_amended_witness :
    (onCircleRightClick 0 stateMenu).uiState = UIState.menuOpen ∧
    (onCircleRightClick 0 stateMenu).menuVisible = true := by
  have h := C8_amended_trigger_silently_performed stateMenu 0 (by decide)
  exact ⟨h.2.1, h.2.2.2⟩

lemma logDiameterChange_attrs (s : AppState) :
    (logDiameterChange s).circleAttrs = s.circleAttrs := by
  rcases hsel : s.selected with _ | ⟨c, d⟩
  · simp [logDiameterChange, hsel]
  · by_cases hne : getR s c * 2 ≠ d
    · rw [logDiameterChange_ne hsel hne]
    · rw [logDiameterChange_noop hsel (not_not.mp hne)]

lemma setR_attrs_frame {s : AppState} {c : Nat} {d : CircleData} (c0 : Nat) (v : ℚ)
    (hc : s.circleAttrs c = some d) :
    ∃ r', (setR s c0 v).circleAttrs c = some ⟨d.cx, d.cy, r'⟩ := by
  by_cases hcc : c = c0
  · subst hcc
    exact ⟨v, by simp [setR, hc]⟩
  · exact ⟨d.r, by simp [setR, hcc, hc]⟩

/-- C9: a circle's position is written exactly once, at creation, from
the click coordinates; every dispatched event that completes without an
exception preserves every existing circle's `cx` and `cy`, and can change
a circle record only in its `r` attribute. (The freshness hypothesis says
the id being allocated next has no record yet, which holds for every id
the embedding ever hands out.) -/
theorem C9_position_immutable :
    (∀ (x y : ℚ) (s : AppState),
      (onSvgClick x y s).circleAttrs s.nextId = some ⟨x, y, DEFAULT_DIAMETER⟩) ∧
    (∀ (tr : Trigger) (s s' : AppState), handleTrigger tr s = Except.ok s' →
      s.circleAttrs s.nextId = none →
      ∀ (c : Nat) (d : CircleData), s.circleAttrs c = some d →
        ∃ r', s'.circleAttrs c = some ⟨d.cx, d.cy, r'⟩) := by
  constructor
  · intro x y s
    simp [onSvgClick]
  · intro tr s s' hok hfresh c d hc
    cases tr with
    | svgClick x y =>
      simp only [handleTrigger, Except.ok.injEq] at hok
      subst hok
      by_cases hcn : c = s.nextId
      · subst hcn
        rw [hfresh] at hc
        cases hc
      · exact ⟨d.r, by simp [onSvgClick, hcn, hc]⟩
    | circleRightClick c1 =>
      simp only [handleTrigger, Except.ok.injEq] at hok
      subst hok
      exact ⟨d.r, by simp [onCircleRightClick, stateSet, onStateChange, hc]⟩
    | adjustDiameterClick =>
      rcases hsel : s.selected with _ | ⟨c0, d0⟩ <;>
        simp only [handleTrigger, hsel, Except.ok.injEq] at hok
      · exact Except.noConfusion hok
      subst hok
      exact ⟨d.r, by simp [onAdjustDiameterClick, stateSet, onStateChange, hc]⟩
    | menuCloseClick =>
      rcases hsel : s.selected with _ | ⟨c0, d0⟩ <;>
        simp only [handleTrigger, hsel, Except.ok.injEq] at hok
      · exact Except.noConfusion hok
      subst hok
      exact ⟨d.r, by simp [onMenuCloseClick, stateSet, onStateChange, hc]⟩
    | diameterInput v =>
      rcases hsel : s.selected with _ | ⟨c0, d0⟩ <;>
        simp only [handleTrigger, hsel, Except.ok.injEq] at hok
      · exact Except.noConfusion hok
      subst hok
      rw [show onDiameterInput v s = setR s c0 (v / 2) from by simp [onDiameterInput, hsel]]
      exact setR_attrs_frame c0 (v / 2) hc
    | formCloseClick =>
      rcases hsel : s.selected with _ | ⟨c0, d0⟩ <;>
        simp only [handleTrigger, hsel, Except.ok.injEq] at hok
      · exact Except.noConfusion hok
      subst hok
      refine ⟨d.r, ?_⟩
      show (stateSet UIState.default (logDiameterChange s)).circleAttrs c =
        some ⟨d.cx, d.cy, d.r⟩
      rw [stateSet_default_eq]
      show (logDiameterChange s).circleAttrs c = some ⟨d.cx, d.cy, d.r⟩
      rw [logDiameterChange_attrs, hc]
    | undoClick =>
      simp only [handleTrigger, Except.ok.injEq] at hok
      subst hok
      rcases List.eq_nil_or_concat s.changes with h0 | ⟨l, ch, hlc⟩
      · rw [onUndoClick_nil h0]
        exact ⟨d.r, by simp [hc]⟩
      · rw [List.concat_eq_append] at hlc
        cases ch with
        | circleAdded c1 =>
          rw [onUndoClick_add hlc]
          exact ⟨d.r, by simp [hc]⟩
        | diameterChange c1 o1 n1 =>
          rw [onUndoClick_dc hlc]
          exact setR_attrs_frame c1 (o1 / 2) hc
    | redoClick =>
      simp only [handleTrigger, Except.ok.injEq] at hok
      subst hok
      rcases List.eq_nil_or_concat s.changesUndone with h0 | ⟨l, ch, hlc⟩
      · rw [onRedoClick_nil h0]
        exact ⟨d.r, by simp [hc]⟩
      · rw [List.concat_eq_append] at hlc
        cases ch with
        | circleAdded c1 =>
          rw [onRedoClick_add hlc]
          exact ⟨d.r, by simp [hc]⟩
        | diameterChange c1 o1 n1 =>
          rw [onRedoClick_dc hlc]
          exact setR_attrs_frame c1 (n1 / 2) hc

/-- C9 witness: after the live slider input that sets the diameter to 100
in the form-open state, the selected circle keeps its position (10, 10),
and creation writes the position of a placed circle. -/
theorem C9_position_immutable_witness :
    (onSvgClick 10 10 initialState).circleAttrs 0 = some ⟨10, 10, DEFAULT_DIAMETER⟩ ∧
    ∃ r', (onDiameterInput 100 stateForm).circleAttrs 0 = some ⟨10, 10, r'⟩ := by
  constructor
  · exact C9_position_immutable.1 10 10 initialState
  · exact C9_position_immutable.2 (Trigger.diameterInput 100) stateForm
      (onDiameterInput 100 stateForm) rfl rfl 0 ⟨10, 10, DEFAULT_DIAMETER⟩ rfl

end CircleDrawer
